import Mathlib

/-!
Shallow embedding of `src/bench.py` (GamesCrafters/GamesmanNova benchmark
harness).  The script is sequential and effectful; we model it as a pure
function from its inputs (resolved configuration, initial `DATABASE`
environment value, and two oracles giving each external solver invocation's
exit code and measured elapsed wall-clock time) to either a normal final
state or a Python-exception state.  External effects are recorded as an
ordered trace of events.  Elapsed times are modelled as rationals.
-/

namespace Bench

/-- A JSON-serialisable value appearing in the output record: either a string
(the note) or a list of elapsed-time samples. -/
inductive PyVal where
  | str (s : String)
  | floatList (xs : List ℚ)
deriving DecidableEq

/-- External effects performed by the script, in order:
`vacuum` is the `sqlite3 bench.db VACUUM` subprocess of `init_bench_database`;
`setEnv v` is an assignment `os.environ["DATABASE"] = v`;
`solverCall` is the `cargo run -- build zero-by --variant=.. --mode=..`
subprocess (recording the `DATABASE` value it sees, its exit code, and
whether its output was captured); `flamegraphCall` is the
`cargo flamegraph` profiling subprocess; `printMean` is the per-variant
progress print; `writeRecord` is the final `json.dump` to a file. -/
inductive Event where
  | vacuum
  | setEnv (value : String)
  | solverCall (variant mode : String) (envDB : Option String)
      (exitCode : Int) (captured : Bool)
  | flamegraphCall (variant : String) (captured : Bool)
  | printMean (variant : String) (value : ℚ)
  | writeRecord (path : String) (record : List (String × PyVal))
deriving DecidableEq

/-- Mutable process state threaded through the script: the current value of
the `DATABASE` environment variable (`none` = unset), the trace of external
effects so far, and a counter of solver invocations used to index the
exit-code and elapsed-time oracles. -/
structure PState where
  envDB : Option String
  trace : List Event
  tick : ℕ
deriving DecidableEq

/-- Resolved command-line configuration (`args`): `--note` (default
"No note."), `--samples` (an `int`, default 3), `--profile` (default false). -/
structure RunConfig where
  note : String
  samples : Int
  profile : Bool
deriving DecidableEq

/-- The configuration produced when every flag is left at its default. -/
def defaultConfig : RunConfig :=
  { note := "No note.", samples := 3, profile := false }

/-- The fixed hardcoded benchmark matrix (src/bench.py lines 92-97). -/
def variants : List String :=
  ["2-10000-1-2", "2-10000-3-5-7-11", "4-10000-1-2", "4-10000-3-5-7-11"]

/-- Embedding of `init_bench_database` (src/bench.py lines 10-19): the events
the function performs when called.  Note: the script body never calls it. -/
def init_bench_database : List Event := [Event.vacuum]

/-- Embedding of `solve_zero_by` (lines 22-35): one solver subprocess with
`--mode=overwrite`, output captured (`capture_output=True`), return value
discarded.  The exit code comes from the oracle at the current tick. -/
def solve_zero_by (exits : ℕ → Int) (variant : String) (st : PState) : PState :=
  { st with
    trace := st.trace ++
      [Event.solverCall variant "overwrite" st.envDB (exits st.tick) true]
    tick := st.tick + 1 }

/-- Embedding of `flamegraph` (lines 38-52): one profiling subprocess; its
output is NOT captured (no `capture_output` argument) and it is not timed. -/
def flamegraph (variant : String) (st : PState) : PState :=
  { st with trace := st.trace ++ [Event.flamegraphCall variant false] }

/-- Python's `bool(s)` on a string: false exactly for the empty string. -/
def pyBool (s : String) : Bool := !s.isEmpty

/-- Resolution of the `--profile` flag by `argparse` with `type=bool,
default=False` (lines 75-80): absent flag gives the default `False`;
a supplied string argument is converted with `bool(...)`. -/
def resolveProfile : Option String → Bool
  | none => false
  | some s => pyBool s

/-- The exception state when the script dies with an unhandled error:
which error, at which variant, the measurements dict built so far, and the
process state at the moment of the raise. -/
structure RunError where
  kind : String
  atVariant : String
  measurementsSoFar : List (String × List ℚ)
  state : PState
deriving DecidableEq

/-- The normal final state of a run: the measurements dict (insertion
order), the output path, the serialised record, and the final process
state. -/
structure RunOutput where
  measurements : List (String × List ℚ)
  path : String
  record : List (String × PyVal)
  state : PState
deriving DecidableEq

/-- A wall-clock timestamp at second resolution, as produced by
`datetime.now()` and consumed by `strftime` (sub-second part dropped). -/
structure DateTime where
  year : ℕ
  month : ℕ
  day : ℕ
  hour : ℕ
  minute : ℕ
  second : ℕ
deriving DecidableEq

/-- Calendar validity of a timestamp as Python's `datetime` guarantees it
(year 1..9999, month 1..12, day 1..31, hour/minute/second in range). -/
def DateTime.valid (t : DateTime) : Prop :=
  1 ≤ t.year ∧ t.year ≤ 9999 ∧ 1 ≤ t.month ∧ t.month ≤ 12 ∧
  1 ≤ t.day ∧ t.day ≤ 31 ∧ t.hour ≤ 23 ∧ t.minute ≤ 59 ∧ t.second ≤ 59

instance (t : DateTime) : Decidable t.valid := by
  unfold DateTime.valid; infer_instance

/-- Chronological strict order on second-resolution timestamps: two
`datetime.now()` readings at least one second apart compare this way after
truncation to seconds. -/
def DateTime.before (a b : DateTime) : Prop :=
  a.year < b.year ∨ (a.year = b.year ∧
    (a.month < b.month ∨ (a.month = b.month ∧
      (a.day < b.day ∨ (a.day = b.day ∧
        (a.hour < b.hour ∨ (a.hour = b.hour ∧
          (a.minute < b.minute ∨ (a.minute = b.minute ∧
            a.second < b.second)))))))))

instance (a b : DateTime) : Decidable (a.before b) := by
  unfold DateTime.before; infer_instance

/-- Zero-padded fixed-width decimal rendering: `padNum w n` is the last `w`
decimal digits of `n`, zero-padded to width `w` (faithful to `strftime`'s
`%Y`/`%m`/... fields for in-range values). -/
def padNum : ℕ → ℕ → List Char
  | 0, _ => []
  | w + 1, n => padNum w (n / 10) ++ [Nat.digitChar (n % 10)]

/-- The characters of `now.strftime("%Y-%m-%d_%H-%M-%S")` (line 128). -/
def stampChars (t : DateTime) : List Char :=
  padNum 4 t.year ++ ['-'] ++ padNum 2 t.month ++ ['-'] ++ padNum 2 t.day ++
  ['_'] ++ padNum 2 t.hour ++ ['-'] ++ padNum 2 t.minute ++ ['-'] ++
  padNum 2 t.second

/-- The timestamp token `stamp` as a string. -/
def strftimeStamp (t : DateTime) : String := String.mk (stampChars t)

/-- The output artifact path `f"dev/bench/{stamp}.json"` (line 129). -/
def outputPath (t : DateTime) : String :=
  "dev/bench/" ++ strftimeStamp t ++ ".json"

/-- The inner sampling loop `for _ in range(samples)` (lines 112-118) for
one variant: each repetition reads the elapsed-time oracle, runs the solver
(whose exit code is never inspected), and appends the elapsed time.
Returns the variant's sample list and the updated state. -/
def sampleLoop (exits : ℕ → Int) (times : ℕ → ℚ) (v : String) :
    ℕ → PState → List ℚ × PState
  | 0, st => ([], st)
  | n + 1, st =>
    let elapsed := times st.tick
    let st' := solve_zero_by exits v st
    let (rest, st'') := sampleLoop exits times v n st'
    (elapsed :: rest, st'')

/-- The outer loop `for v in variants` (lines 110-121): sample each variant,
then print `sum(m) / len(m)`; when `len(m) = 0` Python raises
`ZeroDivisionError` there, aborting the script. -/
def benchLoop (exits : ℕ → Int) (times : ℕ → ℚ) (reps : ℕ) :
    List String → List (String × List ℚ) → PState →
    Except RunError (List (String × List ℚ) × PState)
  | [], acc, st => .ok (acc, st)
  | v :: vs, acc, st =>
    let (m, st') := sampleLoop exits times v reps st
    let acc' := acc ++ [(v, m)]
    if m.length = 0 then
      .error { kind := "ZeroDivisionError", atVariant := v,
               measurementsSoFar := acc', state := st' }
    else
      benchLoop exits times reps vs acc'
        { st' with
          trace := st'.trace ++
            [Event.printMean v (m.sum / (m.length : ℚ))] }

/-- The whole script body (lines 89-131): capture the prior `DATABASE`
value with default "solutions.db", override it to "bench.db", optionally run
the flamegraph pass on the fixed heavy variant, run the benchmark matrix,
restore `DATABASE`, and write the record (measurements plus the "note" key)
to the timestamped path.  `range(samples)` runs `max samples 0` times,
modelled by `Int.toNat`. -/
def runScript (cfg : RunConfig) (env0 : Option String) (exits : ℕ → Int)
    (times : ℕ → ℚ) (now : DateTime) : Except RunError RunOutput :=
  let db := env0.getD "solutions.db"
  let st0 : PState := { envDB := env0, trace := [], tick := 0 }
  let st1 : PState :=
    { st0 with envDB := some "bench.db",
               trace := st0.trace ++ [Event.setEnv "bench.db"] }
  let st2 := if cfg.profile then flamegraph "2-100000-1-2" st1 else st1
  match benchLoop exits times cfg.samples.toNat variants [] st2 with
  | .error e => .error e
  | .ok (ms, st3) =>
    let st4 : PState :=
      { st3 with envDB := some db, trace := st3.trace ++ [Event.setEnv db] }
    let path := outputPath now
    let record := ms.map (fun p => (p.1, PyVal.floatList p.2)) ++
      [("note", PyVal.str cfg.note)]
    .ok { measurements := ms, path := path, record := record,
          state :=
            { st4 with trace := st4.trace ++ [Event.writeRecord path record] } }

/-! ### Expected outputs

Specification-side descriptions of what the loops produce, phrased directly
in terms of the oracles; the lemmas below prove the loop code equal to them.
-/

/-- The `n` elapsed times recorded for consecutive solver invocations
starting at tick `t0`, in execution order. -/
def expectedSamples (times : ℕ → ℚ) : ℕ → ℕ → List ℚ
  | _, 0 => []
  | t0, n + 1 => times t0 :: expectedSamples times (t0 + 1) n

/-- The `n` solver-invocation events for one variant starting at tick `t0`. -/
def solverEvents (exits : ℕ → Int) (v : String) (db : Option String) :
    ℕ → ℕ → List Event
  | _, 0 => []
  | t0, n + 1 =>
    Event.solverCall v "overwrite" db (exits t0) true ::
      solverEvents exits v db (t0 + 1) n

/-- The measurements dict built by the outer loop: one entry per variant in
order, each holding its `n` samples at consecutive ticks. -/
def expectedMeasurements (times : ℕ → ℚ) (n : ℕ) :
    ℕ → List String → List (String × List ℚ)
  | _, [] => []
  | t0, v :: vs =>
    (v, expectedSamples times t0 n) ::
      expectedMeasurements times n (t0 + n) vs

/-- The trace of the outer loop: per variant, its solver events immediately
followed by the mean print for that variant. -/
def benchTrace (exits : ℕ → Int) (times : ℕ → ℚ) (db : Option String)
    (n : ℕ) : ℕ → List String → List Event
  | _, [] => []
  | t0, v :: vs =>
    solverEvents exits v db t0 n ++
      [Event.printMean v ((expectedSamples times t0 n).sum / (n : ℚ))] ++
      benchTrace exits times db n (t0 + n) vs

theorem expectedSamples_length (times : ℕ → ℚ) :
    ∀ (n t0 : ℕ), (expectedSamples times t0 n).length = n := by
  intro n
  induction n with
  | zero => intro t0; rfl
  | succ k ih => intro t0; simp [expectedSamples, ih]

theorem expectedMeasurements_keys (times : ℕ → ℚ) (n : ℕ) :
    ∀ (vs : List String) (t0 : ℕ),
      (expectedMeasurements times n t0 vs).map Prod.fst = vs := by
  intro vs
  induction vs with
  | nil => intro t0; rfl
  | cons v rest ih => intro t0; simp [expectedMeasurements, ih]

theorem expectedMeasurements_lengths (times : ℕ → ℚ) (n : ℕ) :
    ∀ (vs : List String) (t0 : ℕ),
      ∀ p ∈ expectedMeasurements times n t0 vs, p.2.length = n := by
  intro vs
  induction vs with
  | nil => intro t0 p hp; cases hp
  | cons v rest ih =>
    intro t0 p hp
    rcases List.mem_cons.mp hp with hp | hp
    · simp [hp, expectedSamples_length]
    · exact ih _ p hp

/-- Value of one pass of the inner sampling loop: the samples are the oracle
values at consecutive ticks, the trace grows by the solver events, the
environment is untouched, and the tick advances by `n`. -/
theorem sampleLoop_spec (exits : ℕ → Int) (times : ℕ → ℚ) (v : String) :
    ∀ (n : ℕ) (st : PState),
      sampleLoop exits times v n st =
        (expectedSamples times st.tick n,
         { st with
           trace := st.trace ++ solverEvents exits v st.envDB st.tick n
           tick := st.tick + n }) := by
  intro n
  induction n with
  | zero => intro st; simp [sampleLoop, expectedSamples, solverEvents]
  | succ k ih =>
    intro st
    simp only [sampleLoop, solve_zero_by]
    rw [ih]
    simp [expectedSamples, solverEvents, List.append_assoc]
    omega

/-- Value of the outer loop when the repetition count is nonzero: no error,
the accumulator extends with the expected measurements, and the trace grows
by the per-variant solver events and mean prints. -/
theorem benchLoop_spec (exits : ℕ → Int) (times : ℕ → ℚ) (n : ℕ)
    (hn : n ≠ 0) :
    ∀ (vs : List String) (acc : List (String × List ℚ)) (st : PState),
      benchLoop exits times n vs acc st =
        .ok (acc ++ expectedMeasurements times n st.tick vs,
             { st with
               trace := st.trace ++ benchTrace exits times st.envDB n st.tick vs
               tick := st.tick + n * vs.length }) := by
  intro vs
  induction vs with
  | nil =>
    intro acc st
    simp [benchLoop, expectedMeasurements, benchTrace]
  | cons v rest ih =>
    intro acc st
    simp only [benchLoop]
    rw [sampleLoop_spec]
    simp only [expectedSamples_length, hn, if_false]
    rw [ih]
    simp [expectedMeasurements, benchTrace, expectedSamples_length,
      List.append_assoc, Nat.mul_succ]
    ring

/-- The trace segment contributed by the optional profiling pass. -/
def profileSeg (p : Bool) : List Event :=
  if p then [Event.flamegraphCall "2-100000-1-2" false] else []

/-- The serialised output record for a successful run. -/
def okRecord (times : ℕ → ℚ) (n : ℕ) (note : String) :
    List (String × PyVal) :=
  (expectedMeasurements times n 0 variants).map
    (fun p => (p.1, PyVal.floatList p.2)) ++ [("note", PyVal.str note)]

/-- The full output of a successful run, as a function of the inputs:
measurements, output path, record, final environment value and full trace. -/
def okOutput (cfg : RunConfig) (env0 : Option String) (exits : ℕ → Int)
    (times : ℕ → ℚ) (now : DateTime) : RunOutput :=
  { measurements := expectedMeasurements times cfg.samples.toNat 0 variants
    path := outputPath now
    record := okRecord times cfg.samples.toNat cfg.note
    state :=
      { envDB := some (env0.getD "solutions.db")
        trace := [Event.setEnv "bench.db"] ++ profileSeg cfg.profile ++
          benchTrace exits times (some "bench.db") cfg.samples.toNat 0
            variants ++
          [Event.setEnv (env0.getD "solutions.db"),
           Event.writeRecord (outputPath now)
             (okRecord times cfg.samples.toNat cfg.note)]
        tick := cfg.samples.toNat * 4 } }

/-- Full characterisation of a successful run (positive repetition count). -/
theorem runScript_ok (cfg : RunConfig) (env0 : Option String)
    (exits : ℕ → Int) (times : ℕ → ℚ) (now : DateTime)
    (hn : cfg.samples.toNat ≠ 0) :
    runScript cfg env0 exits times now =
      .ok (okOutput cfg env0 exits times now) := by
  unfold runScript okOutput
  cases hp : cfg.profile with
  | false =>
    simp only [benchLoop_spec exits times cfg.samples.toNat hn]
    simp [flamegraph, profileSeg, okRecord, variants, List.append_assoc,
      Nat.mul_comm]
  | true =>
    simp only [benchLoop_spec exits times cfg.samples.toNat hn]
    simp [flamegraph, profileSeg, okRecord, variants, List.append_assoc,
      Nat.mul_comm]

/-- Full characterisation of a run with repetition count zero (`--samples`
at most 0): the script dies with `ZeroDivisionError` at the first variant's
mean print; `DATABASE` is left overridden to "bench.db" and no record is
written. -/
theorem runScript_zero (cfg : RunConfig) (env0 : Option String)
    (exits : ℕ → Int) (times : ℕ → ℚ) (now : DateTime)
    (hn : cfg.samples.toNat = 0) :
    runScript cfg env0 exits times now =
      .error { kind := "ZeroDivisionError"
               atVariant := "2-10000-1-2"
               measurementsSoFar := [("2-10000-1-2", [])]
               state :=
                 { envDB := some "bench.db"
                   trace := [Event.setEnv "bench.db"] ++ profileSeg cfg.profile
                   tick := 0 } } := by
  unfold runScript
  rw [hn]
  cases hp : cfg.profile with
  | false =>
    simp [benchLoop, sampleLoop, variants, profileSeg, flamegraph]
  | true =>
    simp [benchLoop, sampleLoop, variants, profileSeg, flamegraph]

/-! ### Trace and record helpers -/

/-- Whether an event is a profiling-wrapper invocation. -/
def isFlamegraphCall : Event → Bool
  | .flamegraphCall _ _ => true
  | _ => false

/-- Whether an event is the write of the output artifact. -/
def isWriteRecord : Event → Bool
  | .writeRecord _ _ => true
  | _ => false

/-- The event trace of a finished run, whether it ended normally or died
with an exception. -/
def runTrace : Except RunError RunOutput → List Event
  | .ok o => o.state.trace
  | .error e => e.state.trace

/-- The `DATABASE` environment value left behind by a finished run. -/
def finalEnvDB : Except RunError RunOutput → Option String
  | .ok o => o.state.envDB
  | .error e => e.state.envDB

/-- Whether a run finished normally (no unhandled exception). -/
def runOk : Except RunError RunOutput → Bool
  | .ok _ => true
  | .error _ => false

/-- Key lookup in the serialised record, as a JSON object maps keys. -/
def lookupKey (k : String) : List (String × PyVal) → Option PyVal
  | [] => none
  | (k', v) :: rest => if k' = k then some v else lookupKey k rest

theorem lookupKey_append_right (k : String) (l1 l2 : List (String × PyVal))
    (h : ∀ p ∈ l1, p.1 ≠ k) :
    lookupKey k (l1 ++ l2) = lookupKey k l2 := by
  induction l1 with
  | nil => rfl
  | cons q rest ih =>
    obtain ⟨k', v⟩ := q
    simp only [List.cons_append, lookupKey]
    rw [if_neg (h (k', v) (by simp))]
    exact ih (fun p hp => h p (List.mem_cons.mpr (Or.inr hp)))

/-- Every event of one variant's solver-event block satisfies any property
that holds of solver calls for that variant under the fixed mode and
database, with output captured, whatever the exit code. -/
theorem solverEvents_forall {P : Event → Prop} (exits : ℕ → Int)
    (v : String) (db : Option String)
    (h : ∀ ec : Int, P (Event.solverCall v "overwrite" db ec true)) :
    ∀ (n t0 : ℕ), ∀ e ∈ solverEvents exits v db t0 n, P e := by
  intro n
  induction n with
  | zero => intro t0 e he; cases he
  | succ k ih =>
    intro t0 e he
    rcases List.mem_cons.mp he with he | he
    · rw [he]; exact h _
    · exact ih _ e he

/-- Every event of the benchmark-loop trace is either a solver call (fixed
mode and database, output captured) or a mean print. -/
theorem benchTrace_forall {P : Event → Prop} (exits : ℕ → Int)
    (times : ℕ → ℚ) (db : Option String) (n : ℕ)
    (hS : ∀ (v : String) (ec : Int),
      P (Event.solverCall v "overwrite" db ec true))
    (hM : ∀ (v : String) (q : ℚ), P (Event.printMean v q)) :
    ∀ (vs : List String) (t0 : ℕ), ∀ e ∈ benchTrace exits times db n t0 vs,
      P e := by
  intro vs
  induction vs with
  | nil => intro t0 e he; cases he
  | cons v rest ih =>
    intro t0 e he
    simp only [benchTrace, List.append_assoc, List.mem_append,
      List.mem_singleton] at he
    rcases he with he | he | he
    · exact solverEvents_forall exits v db (hS v) n t0 e he
    · rw [he]; exact hM _ _
    · exact ih _ e he

/-- Decomposition of the benchmark-loop trace at any recorded variant: its
mean print sits immediately after its block of solver calls, and the
printed value is the sum of that variant's recorded samples divided by
their number. -/
theorem benchTrace_decomp (exits : ℕ → Int) (times : ℕ → ℚ)
    (db : Option String) (n : ℕ) :
    ∀ (vs : List String) (t0 : ℕ) (p : String × List ℚ),
      p ∈ expectedMeasurements times n t0 vs →
      ∃ t1 pre post,
        p.2 = expectedSamples times t1 n ∧
        benchTrace exits times db n t0 vs =
          pre ++ (solverEvents exits p.1 db t1 n ++
            [Event.printMean p.1 (p.2.sum / (p.2.length : ℚ))]) ++ post := by
  intro vs
  induction vs with
  | nil => intro t0 p hp; cases hp
  | cons v rest ih =>
    intro t0 p hp
    rcases List.mem_cons.mp hp with hp | hp
    · refine ⟨t0, [], benchTrace exits times db n (t0 + n) rest, ?_, ?_⟩
      · rw [hp]
      · rw [hp]
        simp [benchTrace, expectedSamples_length, List.append_assoc]
    · obtain ⟨t1, pre, post, hsam, htr⟩ := ih (t0 + n) p hp
      refine ⟨t1,
        solverEvents exits v db t0 n ++
          [Event.printMean v ((expectedSamples times t0 n).sum / (n : ℚ))] ++
          pre, post, hsam, ?_⟩
      simp only [benchTrace, htr, List.append_assoc]

/-- A successful run forces a positive repetition count. -/
theorem toNat_ne_zero_of_ok (cfg : RunConfig) (env0 : Option String)
    (exits : ℕ → Int) (times : ℕ → ℚ) (now : DateTime) (out : RunOutput)
    (h : runScript cfg env0 exits times now = .ok out) :
    cfg.samples.toNat ≠ 0 := by
  intro h0
  rw [runScript_zero cfg env0 exits times now h0] at h
  cases h

/-! ### Concrete inputs used to instantiate theorems -/

/-- A concrete exit-code oracle: every solver invocation exits 0. -/
def exits0 : ℕ → Int := fun _ => 0

/-- A concrete exit-code oracle: every solver invocation fails with 101. -/
def exitsFail : ℕ → Int := fun _ => 101

/-- A concrete elapsed-time oracle: invocation `t` takes `t + 1` seconds. -/
def times0 : ℕ → ℚ := fun t => (t : ℚ) + 1

/-- A concrete timestamp. -/
def now0 : DateTime := ⟨2024, 1, 2, 3, 4, 5⟩

/-- A concrete timestamp one second after `now0`. -/
def now1 : DateTime := ⟨2024, 1, 2, 3, 4, 6⟩

/-- The vacuum event never occurs in the benchmark-loop trace. -/
theorem vacuum_not_mem_benchTrace (exits : ℕ → Int) (times : ℕ → ℚ)
    (db : Option String) (n : ℕ) (vs : List String) (t0 : ℕ) :
    Event.vacuum ∉ benchTrace exits times db n t0 vs := fun h =>
  benchTrace_forall exits times db n
    (P := fun e => e ≠ Event.vacuum)
    (fun _ _ => by simp) (fun _ _ => by simp) vs t0 _ h rfl

/-! ### Claims -/

/-- Claim C1: the claim states that at startup, before any sampling and
before the optional profiling pass, the harness unconditionally runs the
reclaim/compaction operation (`sqlite3 bench.db VACUUM`) of
`init_bench_database`.  The code defines that operation but the script body
never calls it: no run, whatever its configuration, environment or oracle
behaviour, ever performs the vacuum event. -/
theorem C1_vacuum_never_performed (cfg : RunConfig) (env0 : Option String)
    (exits : ℕ → Int) (times : ℕ → ℚ) (now : DateTime) :
    init_bench_database = [Event.vacuum] ∧
    Event.vacuum ∉ runTrace (runScript cfg env0 exits times now) := by
  refine ⟨rfl, ?_⟩
  by_cases hn : cfg.samples.toNat = 0
  · rw [runScript_zero _ _ _ _ _ hn]
    cases hp : cfg.profile <;> simp [runTrace, profileSeg, hp]
  · rw [runScript_ok _ _ _ _ _ hn]
    cases hp : cfg.profile <;>
      simp [runTrace, okOutput, profileSeg, hp,
        vacuum_not_mem_benchTrace]

/-- Claim C2 counterexample: with `DATABASE` unset before the run (`none`),
the run completes without failure, yet immediately afterwards `DATABASE` is
set (to "solutions.db"), so it does not equal its prior unset state. -/
theorem C2_counterexample :
    runOk (runScript defaultConfig none exits0 times0 now0) = true ∧
    finalEnvDB (runScript defaultConfig none exits0 times0 now0) ≠ none := by
  rw [runScript_ok defaultConfig none exits0 times0 now0 (by decide)]
  exact ⟨rfl, by simp [finalEnvDB, okOutput]⟩

/-- Claim C2 (amended): for every run that completes without an unhandled
failure, the `DATABASE` variable read immediately after the run equals
`os.environ.get("DATABASE", "solutions.db")` taken before the run — in
particular it equals the prior value whenever `DATABASE` was set before the
run, while if it was unset before the run it is left set to
"solutions.db" — and this restoring assignment is performed after all
sampling but before the output artifact is written. -/
theorem C2_database_restoration (cfg : RunConfig) (env0 : Option String)
    (exits : ℕ → Int) (times : ℕ → ℚ) (now : DateTime) (out : RunOutput)
    (h : runScript cfg env0 exits times now = Except.ok out) :
    out.state.envDB = some (env0.getD "solutions.db") ∧
    (∀ s, env0 = some s → out.state.envDB = env0) ∧
    ∃ pre, out.state.trace =
      pre ++ [Event.setEnv (env0.getD "solutions.db"),
              Event.writeRecord out.path out.record] := by
  have hn := toNat_ne_zero_of_ok _ _ _ _ _ _ h
  rw [runScript_ok _ _ _ _ _ hn] at h
  injection h with h
  subst h
  refine ⟨rfl, ?_, ?_⟩
  · intro s hs; rw [hs]; rfl
  · refine ⟨[Event.setEnv "bench.db"] ++ profileSeg cfg.profile ++
      benchTrace exits times (some "bench.db") cfg.samples.toNat 0 variants,
      ?_⟩
    simp [okOutput, List.append_assoc]

/-- Witness for C2 (amended) at a concrete input: prior value
"custom.db", default configuration, all-zero exit codes. -/
theorem C2_database_restoration_witness :
    finalEnvDB (runScript defaultConfig (some "custom.db") exits0 times0
      now0) = some "custom.db" := by
  have h := runScript_ok defaultConfig (some "custom.db") exits0 times0 now0
    (by decide)
  have h2 := (C2_database_restoration defaultConfig (some "custom.db")
    exits0 times0 now0 _ h).2.1 "custom.db" rfl
  rw [h]
  simpa [finalEnvDB] using h2

/-- Claim C9: with `--samples` resolving to 0 (or any value below 1), the
harness raises an unhandled `ZeroDivisionError` while computing the first
variant's mean, terminating the run with no result record written and with
`DATABASE` left overridden to "bench.db". -/
theorem C9_zero_samples_division_error (cfg : RunConfig)
    (env0 : Option String) (exits : ℕ → Int) (times : ℕ → ℚ)
    (now : DateTime) (h : cfg.samples ≤ 0) :
    ∃ e, runScript cfg env0 exits times now = Except.error e ∧
      e.kind = "ZeroDivisionError" ∧
      e.atVariant = "2-10000-1-2" ∧
      e.state.envDB = some "bench.db" ∧
      ∀ ev ∈ e.state.trace, isWriteRecord ev = false := by
  have hn : cfg.samples.toNat = 0 := by omega
  refine ⟨_, runScript_zero _ _ _ _ _ hn, rfl, rfl, rfl, ?_⟩
  intro ev hev
  rcases List.mem_append.mp hev with hev | hev
  · rw [List.mem_singleton.mp hev]; rfl
  · unfold profileSeg at hev
    rcases Bool.eq_false_or_eq_true cfg.profile with hp | hp <;>
      rw [hp] at hev <;> simp at hev
    rw [hev]; rfl

/-- Witness for C9 at a concrete input: samples = 0. -/
theorem C9_zero_samples_division_error_witness :
    ∃ e, runScript { note := "No note.", samples := 0, profile := false }
        none exits0 times0 now0 = Except.error e ∧
      e.kind = "ZeroDivisionError" ∧
      e.atVariant = "2-10000-1-2" ∧
      e.state.envDB = some "bench.db" ∧
      ∀ ev ∈ e.state.trace, isWriteRecord ev = false :=
  C9_zero_samples_division_error _ none exits0 times0 now0 (by decide)

/-- Claim C10: the `--profile` flag resolves to true for every non-empty
string argument (including "False" and "0"), and to false exactly when the
flag is omitted (taking the default) or given the empty string. -/
theorem C10_profile_flag_truthiness :
    resolveProfile none = false ∧
    resolveProfile (some "") = false ∧
    resolveProfile (some "False") = true ∧
    resolveProfile (some "0") = true ∧
    ∀ s : String, resolveProfile (some s) = false ↔ s = "" := by
  refine ⟨rfl, rfl, rfl, rfl, ?_⟩
  intro s
  simp [resolveProfile, pyBool, String.isEmpty_iff]

/-- Claim C3: for every configuration with sampleCount n ≥ 1, the run
completes and every variant of the fixed ordered sequence has its sample
sequence — which starts empty — filled to exactly n elapsed-time entries,
namely the successively measured elapsed times in execution order. -/
theorem C3_sample_counts (cfg : RunConfig) (env0 : Option String)
    (exits : ℕ → Int) (times : ℕ → ℚ) (now : DateTime) (n : ℕ)
    (hs : cfg.samples = (n : Int)) (hn : 1 ≤ n) :
    ∃ out, runScript cfg env0 exits times now = Except.ok out ∧
      out.measurements = expectedMeasurements times n 0 variants ∧
      out.measurements.map Prod.fst = variants ∧
      ∀ p ∈ out.measurements, p.2.length = n := by
  have htn : cfg.samples.toNat = n := by omega
  refine ⟨_, runScript_ok _ _ _ _ _ (by omega), ?_, ?_, ?_⟩
  · simp [okOutput, htn]
  · simp [okOutput, htn, expectedMeasurements_keys]
  · intro p hp
    refine expectedMeasurements_lengths times n variants 0 p ?_
    simpa [okOutput, htn] using hp

/-- Witness for C3 at a concrete input: the default configuration has
sampleCount 3. -/
theorem C3_sample_counts_witness :
    ∃ out, runScript defaultConfig none exits0 times0 now0 = Except.ok out ∧
      out.measurements = expectedMeasurements times0 3 0 variants ∧
      out.measurements.map Prod.fst = variants ∧
      ∀ p ∈ out.measurements, p.2.length = 3 :=
  C3_sample_counts defaultConfig none exits0 times0 now0 3 (by decide)
    (by decide)

/-- Claim C4: for every run that completes, the keys of the persisted output
record are exactly the four variant identifiers of the fixed sequence, in
order, together with the reserved key "note", and the "note" key holds
exactly the configured note text. -/
theorem C4_record_keys_and_note (cfg : RunConfig) (env0 : Option String)
    (exits : ℕ → Int) (times : ℕ → ℚ) (now : DateTime) (out : RunOutput)
    (h : runScript cfg env0 exits times now = Except.ok out) :
    out.record.map Prod.fst = variants ++ ["note"] ∧
    lookupKey "note" out.record = some (PyVal.str cfg.note) := by
  have hn := toNat_ne_zero_of_ok _ _ _ _ _ _ h
  rw [runScript_ok _ _ _ _ _ hn] at h
  injection h with h
  subst h
  have hnot : ∀ p ∈ (expectedMeasurements times cfg.samples.toNat 0
      variants).map (fun p => (p.1, PyVal.floatList p.2)), p.1 ≠ "note" := by
    intro p hp
    obtain ⟨q, hq, rfl⟩ := List.mem_map.mp hp
    have hq1 : q.1 ∈ variants := by
      rw [← expectedMeasurements_keys times cfg.samples.toNat variants 0]
      exact List.mem_map_of_mem Prod.fst hq
    intro hcontra
    rw [show (q.1, PyVal.floatList q.2).1 = q.1 from rfl] at hcontra
    rw [hcontra] at hq1
    revert hq1
    decide
  constructor
  · show List.map Prod.fst (okRecord times cfg.samples.toNat cfg.note) = _
    unfold okRecord
    rw [List.map_append, List.map_map]
    rw [show List.map (Prod.fst ∘ fun p : String × List ℚ =>
        (p.1, PyVal.floatList p.2))
        (expectedMeasurements times cfg.samples.toNat 0 variants) =
      List.map Prod.fst
        (expectedMeasurements times cfg.samples.toNat 0 variants) from rfl]
    rw [expectedMeasurements_keys times cfg.samples.toNat variants 0]
    rfl
  · show lookupKey "note" (okRecord times cfg.samples.toNat cfg.note) = _
    unfold okRecord
    rw [lookupKey_append_right _ _ _ hnot]
    simp [lookupKey]

/-- Witness for C4 at a concrete input. -/
theorem C4_record_keys_and_note_witness :
    (okOutput defaultConfig none exits0 times0 now0).record.map Prod.fst =
      variants ++ ["note"] ∧
    lookupKey "note" (okOutput defaultConfig none exits0 times0 now0).record
      = some (PyVal.str "No note.") :=
  C4_record_keys_and_note defaultConfig none exits0 times0 now0 _
    (runScript_ok defaultConfig none exits0 times0 now0 (by decide))

/-- Claim C5: for every run that completes and every variant of the matrix,
the trace contains — immediately after that variant's block of solver
invocations, hence directly after its repetition loop and not after the
whole matrix — a print of exactly the arithmetic mean (sum divided by
count) of that variant's recorded sample sequence. -/
theorem C5_mean_printed_per_variant (cfg : RunConfig) (env0 : Option String)
    (exits : ℕ → Int) (times : ℕ → ℚ) (now : DateTime) (out : RunOutput)
    (h : runScript cfg env0 exits times now = Except.ok out) :
    ∀ p ∈ out.measurements, ∃ t1 pre post,
      p.2 = expectedSamples times t1 cfg.samples.toNat ∧
      out.state.trace =
        pre ++ (solverEvents exits p.1 (some "bench.db") t1
            cfg.samples.toNat ++
          [Event.printMean p.1 (p.2.sum / (p.2.length : ℚ))]) ++ post := by
  have hn := toNat_ne_zero_of_ok _ _ _ _ _ _ h
  rw [runScript_ok _ _ _ _ _ hn] at h
  injection h with h
  subst h
  intro p hp
  have hp' : p ∈ expectedMeasurements times cfg.samples.toNat 0 variants := by
    simpa [okOutput] using hp
  obtain ⟨t1, pre, post, hsam, htr⟩ :=
    benchTrace_decomp exits times (some "bench.db") cfg.samples.toNat
      variants 0 p hp'
  refine ⟨t1, [Event.setEnv "bench.db"] ++ profileSeg cfg.profile ++ pre,
    post ++ [Event.setEnv (env0.getD "solutions.db"),
      Event.writeRecord (outputPath now)
        (okRecord times cfg.samples.toNat cfg.note)], hsam, ?_⟩
  show (okOutput cfg env0 exits times now).state.trace = _
  simp only [okOutput, htr, List.append_assoc]

/-- Witness for C5 at a concrete input: the first variant of the matrix. -/
theorem C5_mean_printed_per_variant_witness :
    ∃ t1 pre post,
      expectedSamples times0 0 3 = expectedSamples times0 t1 3 ∧
      (okOutput defaultConfig none exits0 times0 now0).state.trace =
        pre ++ (solverEvents exits0 "2-10000-1-2" (some "bench.db") t1 3 ++
          [Event.printMean "2-10000-1-2"
            ((expectedSamples times0 0 3).sum /
              ((expectedSamples times0 0 3).length : ℚ))]) ++ post :=
  C5_mean_printed_per_variant defaultConfig none exits0 times0 now0 _
    (runScript_ok defaultConfig none exits0 times0 now0 (by decide))
    ("2-10000-1-2", expectedSamples times0 0 3)
    (List.mem_cons_self _ _)

/-- Case analysis for membership in a successful run's trace. -/
theorem mem_okTrace_cases {cfg : RunConfig} {env0 : Option String}
    {exits : ℕ → Int} {times : ℕ → ℚ} {now : DateTime} {e : Event}
    (he : e ∈ (okOutput cfg env0 exits times now).state.trace) :
    e = Event.setEnv "bench.db" ∨
    (cfg.profile = true ∧ e = Event.flamegraphCall "2-100000-1-2" false) ∨
    e ∈ benchTrace exits times (some "bench.db") cfg.samples.toNat 0
      variants ∨
    e = Event.setEnv (env0.getD "solutions.db") ∨
    e = Event.writeRecord (outputPath now)
      (okRecord times cfg.samples.toNat cfg.note) := by
  have he' : e ∈ [Event.setEnv "bench.db"] ++ profileSeg cfg.profile ++
      benchTrace exits times (some "bench.db") cfg.samples.toNat 0 variants ++
      [Event.setEnv (env0.getD "solutions.db"),
       Event.writeRecord (outputPath now)
         (okRecord times cfg.samples.toNat cfg.note)] := he
  rcases List.mem_append.mp he' with h1 | h4
  · rcases List.mem_append.mp h1 with h2 | h3
    · rcases List.mem_append.mp h2 with h5 | h6
      · exact Or.inl (List.mem_singleton.mp h5)
      · unfold profileSeg at h6
        cases hp : cfg.profile
        · rw [hp] at h6; simp at h6
        · rw [hp] at h6; simp only [if_pos rfl] at h6
          exact Or.inr (Or.inl ⟨rfl, List.mem_singleton.mp h6⟩)
    · exact Or.inr (Or.inr (Or.inl h3))
  · rcases List.mem_cons.mp h4 with h5 | h6
    · exact Or.inr (Or.inr (Or.inr (Or.inl h5)))
    · exact Or.inr (Or.inr (Or.inr (Or.inr (List.mem_singleton.mp h6))))

/-- No event of the benchmark-loop trace is a profiling invocation. -/
theorem benchTrace_no_flamegraph (exits : ℕ → Int) (times : ℕ → ℚ)
    (db : Option String) (n : ℕ) (vs : List String) (t0 : ℕ) :
    ∀ e ∈ benchTrace exits times db n t0 vs, isFlamegraphCall e = false :=
  benchTrace_forall exits times db n
    (P := fun e => isFlamegraphCall e = false)
    (fun _ _ => rfl) (fun _ _ => rfl) vs t0

/-- Claim C6: a run that completes performs a profiling-wrapper invocation
exactly when the profile flag is set, and then exactly one, against the
fixed heavy variant "2-100000-1-2" — a variant distinct from every member
of the benchmark matrix — placed before the first counted sample (directly
after the environment override, before every solver invocation), and this
invocation contributes zero entries to the measurements, which are exactly
the per-variant sample lists, independent of the flag. -/
theorem C6_profiling_pass (cfg : RunConfig) (env0 : Option String)
    (exits : ℕ → Int) (times : ℕ → ℚ) (now : DateTime) (out : RunOutput)
    (h : runScript cfg env0 exits times now = Except.ok out) :
    "2-100000-1-2" ∉ variants ∧
    out.state.trace.countP isFlamegraphCall =
      (if cfg.profile then 1 else 0) ∧
    (∀ e ∈ out.state.trace, isFlamegraphCall e = true →
      e = Event.flamegraphCall "2-100000-1-2" false) ∧
    (cfg.profile = true → ∃ rest,
      out.state.trace = Event.setEnv "bench.db" ::
        Event.flamegraphCall "2-100000-1-2" false :: rest) ∧
    out.measurements =
      expectedMeasurements times cfg.samples.toNat 0 variants := by
  have hn := toNat_ne_zero_of_ok _ _ _ _ _ _ h
  rw [runScript_ok _ _ _ _ _ hn] at h
  injection h with h
  subst h
  have hbt := benchTrace_no_flamegraph exits times (some "bench.db")
    cfg.samples.toNat variants 0
  refine ⟨by decide, ?_, ?_, ?_, rfl⟩
  · show ([Event.setEnv "bench.db"] ++ profileSeg cfg.profile ++
      benchTrace exits times (some "bench.db") cfg.samples.toNat 0 variants ++
      [Event.setEnv (env0.getD "solutions.db"),
       Event.writeRecord (outputPath now)
         (okRecord times cfg.samples.toNat cfg.note)]).countP
        isFlamegraphCall = _
    rw [List.countP_append, List.countP_append, List.countP_append]
    have h1 : List.countP isFlamegraphCall [Event.setEnv "bench.db"] = 0 :=
      rfl
    have h3 : List.countP isFlamegraphCall (benchTrace exits times
        (some "bench.db") cfg.samples.toNat 0 variants) = 0 :=
      List.countP_eq_zero.mpr (fun e he => by
        simp only [Bool.not_eq_true]
        exact hbt e he)
    have h4 : List.countP isFlamegraphCall
        [Event.setEnv (env0.getD "solutions.db"),
         Event.writeRecord (outputPath now)
           (okRecord times cfg.samples.toNat cfg.note)] = 0 := rfl
    rw [h1, h3, h4]
    cases cfg.profile <;> rfl
  · intro e he hfl
    rcases mem_okTrace_cases he with h | ⟨hp, h⟩ | h | h | h
    · rw [h] at hfl; cases hfl
    · exact h
    · rw [hbt e h] at hfl; cases hfl
    · rw [h] at hfl; cases hfl
    · rw [h] at hfl; cases hfl
  · intro hp
    refine ⟨benchTrace exits times (some "bench.db") cfg.samples.toNat 0
      variants ++ [Event.setEnv (env0.getD "solutions.db"),
        Event.writeRecord (outputPath now)
          (okRecord times cfg.samples.toNat cfg.note)], ?_⟩
    show [Event.setEnv "bench.db"] ++ profileSeg cfg.profile ++ _ ++ _ = _
    rw [hp]
    simp [profileSeg]

/-- Witness for C6 at a concrete input with the profile flag set. -/
theorem C6_profiling_pass_witness :
    "2-100000-1-2" ∉ variants ∧
    (okOutput { defaultConfig with profile := true } none exits0 times0
      now0).state.trace.countP isFlamegraphCall =
      (if ({ defaultConfig with profile := true } : RunConfig).profile
        then 1 else 0) ∧
    (∀ e ∈ (okOutput { defaultConfig with profile := true } none exits0
        times0 now0).state.trace, isFlamegraphCall e = true →
      e = Event.flamegraphCall "2-100000-1-2" false) ∧
    (({ defaultConfig with profile := true } : RunConfig).profile = true →
      ∃ rest, (okOutput { defaultConfig with profile := true } none exits0
        times0 now0).state.trace = Event.setEnv "bench.db" ::
          Event.flamegraphCall "2-100000-1-2" false :: rest) ∧
    (okOutput { defaultConfig with profile := true } none exits0 times0
      now0).measurements = expectedMeasurements times0
        ({ defaultConfig with profile := true } : RunConfig).samples.toNat 0
        variants :=
  C6_profiling_pass { defaultConfig with profile := true } none exits0
    times0 now0 _
    (runScript_ok { defaultConfig with profile := true } none exits0 times0
      now0 (by decide))

/-- Claim C7: solver failure is never inspected or surfaced: a run's
measurements, record, path and final environment value are identical under
any two exit-code oracles — in particular every repetition contributes its
elapsed-time sample whether or not the solver failed — and every solver
invocation in the trace has its output captured rather than shown. -/
theorem C7_solver_failure_ignored (cfg : RunConfig) (env0 : Option String)
    (exits exits' : ℕ → Int) (times : ℕ → ℚ) (now : DateTime)
    (out : RunOutput)
    (h : runScript cfg env0 exits times now = Except.ok out) :
    (∃ out', runScript cfg env0 exits' times now = Except.ok out' ∧
      out'.measurements = out.measurements ∧ out'.record = out.record ∧
      out'.path = out.path ∧ out'.state.envDB = out.state.envDB) ∧
    (∀ p ∈ out.measurements, p.2.length = cfg.samples.toNat) ∧
    (∀ e ∈ out.state.trace, ∀ v m db ec c,
      e = Event.solverCall v m db ec c → c = true) := by
  have hn := toNat_ne_zero_of_ok _ _ _ _ _ _ h
  rw [runScript_ok _ _ _ _ _ hn] at h
  injection h with h
  subst h
  refine ⟨⟨okOutput cfg env0 exits' times now,
    runScript_ok _ _ _ _ _ hn, rfl, rfl, rfl, rfl⟩, ?_, ?_⟩
  · intro p hp
    exact expectedMeasurements_lengths times cfg.samples.toNat variants 0 p
      (by simpa [okOutput] using hp)
  · have hbt := benchTrace_forall exits times (some "bench.db")
      cfg.samples.toNat
      (P := fun e => ∀ v m db ec c, e = Event.solverCall v m db ec c →
        c = true)
      (fun v0 ec0 => by
        intro v m db ec c heq
        injection heq with h1 h2 h3 h4 h5
        exact h5.symm)
      (fun v0 q0 => by intro v m db ec c heq; cases heq)
      variants 0
    intro e he
    rcases mem_okTrace_cases he with h | ⟨hp, h⟩ | h | h | h
    · rw [h]; intro v m db ec c heq; cases heq
    · rw [h]; intro v m db ec c heq; cases heq
    · exact hbt e h
    · rw [h]; intro v m db ec c heq; cases heq
    · rw [h]; intro v m db ec c heq; cases heq

/-- Witness for C7 at a concrete input: all-zero exit codes against
all-failing exit codes. -/
theorem C7_solver_failure_ignored_witness :
    (∃ out', runScript defaultConfig none exitsFail times0 now0 =
        Except.ok out' ∧
      out'.measurements =
        (okOutput defaultConfig none exits0 times0 now0).measurements ∧
      out'.record = (okOutput defaultConfig none exits0 times0 now0).record ∧
      out'.path = (okOutput defaultConfig none exits0 times0 now0).path ∧
      out'.state.envDB =
        (okOutput defaultConfig none exits0 times0 now0).state.envDB) ∧
    (∀ p ∈ (okOutput defaultConfig none exits0 times0 now0).measurements,
      p.2.length = defaultConfig.samples.toNat) ∧
    (∀ e ∈ (okOutput defaultConfig none exits0 times0 now0).state.trace,
      ∀ v m db ec c, e = Event.solverCall v m db ec c → c = true) :=
  C7_solver_failure_ignored defaultConfig none exits0 exitsFail times0 now0
    _ (runScript_ok defaultConfig none exits0 times0 now0 (by decide))

/-! ### Lexicographic ordering of timestamped filenames (claim C8) -/

theorem padNum_length : ∀ (w n : ℕ), (padNum w n).length = w := by
  intro w
  induction w with
  | zero => intro n; rfl
  | succ k ih => intro n; simp [padNum, ih]

/-- Prepending a common segment preserves lexicographic order. -/
theorem lex_append_same {r : Char → Char → Prop} (s : List Char)
    {t u : List Char} (h : List.Lex r t u) :
    List.Lex r (s ++ t) (s ++ u) := by
  induction s with
  | nil => exact h
  | cons a s ih => exact List.Lex.cons ih

/-- Equal-length segments in lexicographic order stay ordered whatever is
appended after them. -/
theorem lex_append_of_lex {r : Char → Char → Prop} {u v : List Char} :
    ∀ {a b : List Char}, a.length = b.length → List.Lex r a b →
      List.Lex r (a ++ u) (b ++ v) := by
  intro a
  induction a with
  | nil =>
    intro b hlen h
    cases h
    simp at hlen
  | cons x a ih =>
    intro b hlen h
    cases h with
    | cons h' => exact List.Lex.cons (ih (by simpa using hlen) h')
    | rel hr => exact List.Lex.rel hr

/-- Decimal digit characters compare like the digits themselves. -/
theorem digitChar_lt_digitChar {m n : ℕ} (hmn : m < n) (hn : n < 10) :
    Nat.digitChar m < Nat.digitChar n := by
  interval_cases n <;> interval_cases m <;> decide

/-- Zero-padded fixed-width renderings of in-range numbers compare
lexicographically like the numbers. -/
theorem padNum_lex : ∀ (w : ℕ) {m n : ℕ}, m < n → n < 10 ^ w →
    List.Lex (· < ·) (padNum w m) (padNum w n) := by
  intro w
  induction w with
  | zero =>
    intro m n hmn hn
    norm_num at hn
    exact absurd hmn (by omega)
  | succ k ih =>
    intro m n hmn hn
    rcases Nat.lt_or_ge (m / 10) (n / 10) with h | h
    · have hn' : n / 10 < 10 ^ k := by
        have hp : (10 : ℕ) ^ (k + 1) = 10 * 10 ^ k := by ring
        omega
      exact lex_append_of_lex (by simp [padNum_length]) (ih h hn')
    · have hq : m / 10 = n / 10 := by omega
      have hr : m % 10 < n % 10 := by omega
      show List.Lex (· < ·)
        (padNum k (m / 10) ++ [Nat.digitChar (m % 10)])
        (padNum k (n / 10) ++ [Nat.digitChar (n % 10)])
      rw [hq]
      exact lex_append_same _ (List.Lex.rel
        (digitChar_lt_digitChar hr (Nat.mod_lt n (by norm_num))))

theorem stampChars_length (t : DateTime) : (stampChars t).length = 19 := by
  simp [stampChars, padNum_length]

/-- Chronologically ordered valid timestamps render to lexicographically
ordered stamp strings. -/
theorem stampChars_lex {t1 t2 : DateTime} (h1 : t1.valid) (h2 : t2.valid)
    (h : t1.before t2) :
    List.Lex (· < ·) (stampChars t1) (stampChars t2) := by
  obtain ⟨hy1, hy2, hmo1, hmo2, hd1, hd2, hh2, hmi2, hs2⟩ := h2
  have hb4 : t2.year < 10 ^ 4 := by
    have : (10 : ℕ) ^ 4 = 10000 := by norm_num
    omega
  have hbmo : t2.month < 10 ^ 2 := by
    have : (10 : ℕ) ^ 2 = 100 := by norm_num
    omega
  have hbd : t2.day < 10 ^ 2 := by
    have : (10 : ℕ) ^ 2 = 100 := by norm_num
    omega
  have hbh : t2.hour < 10 ^ 2 := by
    have : (10 : ℕ) ^ 2 = 100 := by norm_num
    omega
  have hbmi : t2.minute < 10 ^ 2 := by
    have : (10 : ℕ) ^ 2 = 100 := by norm_num
    omega
  have hbs : t2.second < 10 ^ 2 := by
    have : (10 : ℕ) ^ 2 = 100 := by norm_num
    omega
  rcases h with hy | ⟨hy, hmo | ⟨hmo, hd | ⟨hd, hh | ⟨hh, hmi | ⟨hmi, hs⟩⟩⟩⟩⟩
  · simp only [stampChars, List.append_assoc]
    exact lex_append_of_lex (by simp [padNum_length]) (padNum_lex 4 hy hb4)
  · simp only [stampChars, List.append_assoc]
    rw [hy]
    apply lex_append_same
    apply lex_append_same
    exact lex_append_of_lex (by simp [padNum_length]) (padNum_lex 2 hmo hbmo)
  · simp only [stampChars, List.append_assoc]
    rw [hy, hmo]
    apply lex_append_same
    apply lex_append_same
    apply lex_append_same
    apply lex_append_same
    exact lex_append_of_lex (by simp [padNum_length]) (padNum_lex 2 hd hbd)
  · simp only [stampChars, List.append_assoc]
    rw [hy, hmo, hd]
    apply lex_append_same
    apply lex_append_same
    apply lex_append_same
    apply lex_append_same
    apply lex_append_same
    apply lex_append_same
    exact lex_append_of_lex (by simp [padNum_length]) (padNum_lex 2 hh hbh)
  · simp only [stampChars, List.append_assoc]
    rw [hy, hmo, hd, hh]
    apply lex_append_same
    apply lex_append_same
    apply lex_append_same
    apply lex_append_same
    apply lex_append_same
    apply lex_append_same
    apply lex_append_same
    apply lex_append_same
    exact lex_append_of_lex (by simp [padNum_length]) (padNum_lex 2 hmi hbmi)
  · simp only [stampChars, List.append_assoc]
    rw [hy, hmo, hd, hh, hmi]
    apply lex_append_same
    apply lex_append_same
    apply lex_append_same
    apply lex_append_same
    apply lex_append_same
    apply lex_append_same
    apply lex_append_same
    apply lex_append_same
    apply lex_append_same
    apply lex_append_same
    exact padNum_lex 2 hs hbs

/-- Claim C8: for two runs whose Result Recorder timestamps are valid
calendar times taken at least one second apart (so the earlier one is
chronologically before the later at second resolution), the two
timestamp-derived output filenames are lexicographically ordered
consistently with the real ordering of the timestamps. -/
theorem C8_filenames_ordered (t1 t2 : DateTime) (h1 : t1.valid)
    (h2 : t2.valid) (h : t1.before t2) :
    outputPath t1 < outputPath t2 := by
  apply String.lt_iff_toList_lt.mpr
  show List.Lex (· < ·) (outputPath t1).toList (outputPath t2).toList
  have hdata : ∀ t : DateTime, (outputPath t).toList =
      "dev/bench/".toList ++ (stampChars t ++ ".json".toList) := by
    intro t
    show (("dev/bench/" ++ strftimeStamp t ++ ".json").data) = _
    rw [String.data_append, String.data_append]
    simp [strftimeStamp, List.append_assoc]
  rw [hdata t1, hdata t2]
  apply lex_append_same
  exact lex_append_of_lex
    (by rw [stampChars_length, stampChars_length])
    (stampChars_lex h1 h2 h)

/-- Witness for C8 at concrete timestamps one second apart. -/
theorem C8_filenames_ordered_witness :
    now0.valid ∧ now1.valid ∧ now0.before now1 ∧
    outputPath now0 < outputPath now1 :=
  ⟨by decide, by decide, by decide,
    C8_filenames_ordered now0 now1 (by decide) (by decide) (by decide)⟩

end Bench
